import Mathlib

/-!
Shallow embedding of the order-insensitive-compare library (src/lib.rs).

The Rust library compares collections of byte entries for multiset equality
and fingerprints them.  We model:

* `Entry` (Rust `Vec<u8>`) as `List Nat`; `EntryList` (Rust `Vec<Entry>`) as
  `List Entry`.  Byte buffers are compared lexicographically in Rust, matching
  the lexicographic `LinearOrder` on `List Nat`.
* Rust `sort_unstable` / `par_sort_unstable` as `sortList` (insertion sort).
  For a total order the sorted permutation of a list is unique, so any
  correct sort, sequential or parallel, stable or not, computes the same
  list; `sortList` is that canonical result.
* rayon parallel maps as plain `List.map` and rayon parallel sorts as
  `sortList`: both are deterministic and schedule-independent in rayon.
* The external hash crates (ahash, sha2, blake3) are not part of this
  repository, so each hash family is an abstract model structure holding the
  operations the library calls on it.  Nothing about the concrete hash
  algorithms is assumed.
* `par_eq` calls rayon `par_chunks(chunk_size)`, which panics (asserts) when
  `chunk_size == 0`.  The model therefore returns `Option Bool`, with `none`
  standing for the panic and `some b` for a normal return of `b`.
-/

abbrev Entry : Type := List Nat

abbrev EntryList : Type := List Entry

/-- Canonical sort of a list over a linear order.  Models Rust
`sort_unstable` / `par_sort_unstable`: for a total order the sorted
permutation is unique, so insertion sort computes the same list. -/
def sortList {α : Type} [LinearOrder α] (l : List α) : List α :=
  List.insertionSort (fun a b => a ≤ b) l

/-- Chunk decomposition with explicit fuel (structural recursion so that the
kernel can evaluate it).  For `1 ≤ c` and `l.length ≤ fuel` this is exactly
the decomposition computed by rayon `par_chunks(c)`: successive chunks of
`c` elements, the last chunk possibly shorter. -/
def chunksFuel {α : Type} (c : Nat) : Nat → List α → List (List α)
  | _, [] => []
  | 0, _ :: _ => []
  | fuel + 1, a :: l => (a :: l).take c :: chunksFuel c fuel ((a :: l).drop c)

/-- The chunk decomposition of rayon `par_chunks(c)` (for `1 ≤ c`, which is
the only way the library reaches it). -/
def chunks {α : Type} (c : Nat) (l : List α) : List (List α) :=
  chunksFuel c l.length l

/-- Model of the private helper `par_eq` (src/lib.rs lines 9-15).
`numThreads` is the rayon worker count (`rayon::current_num_threads()`,
always at least 1), an environment parameter of the run.  The Rust code is

  let chunk_size = x.len() / rayon::current_num_threads();
  x.len() == y.len()
      && x.par_chunks(chunk_size)
          .zip(y.par_chunks(chunk_size))
          .all(|(xe, ye)| xe == ye)

`&&` short-circuits, so for unequal lengths the chunking is never evaluated
and the result is `false`.  When the lengths are equal, `par_chunks` asserts
that `chunk_size != 0` and panics otherwise; the panic is modelled as
`none`, a normal boolean return as `some`. -/
def par_eq {α : Type} [DecidableEq α] (numThreads : Nat) (x y : List α) : Option Bool :=
  let chunk_size := x.length / numThreads
  if x.length = y.length then
    if chunk_size = 0 then none
    else some (((chunks chunk_size x).zip (chunks chunk_size y)).all
      fun p => decide (p.1 = p.2))
  else some false

/-- Model of `eq_by_sorting_seq` (src/lib.rs lines 19-23): sort both inputs,
compare for structural equality. -/
def eq_by_sorting_seq (x y : EntryList) : Bool :=
  let x := sortList x
  let y := sortList y
  decide (x = y)

/-- Model of `eq_by_sorting_par` (src/lib.rs lines 25-29): parallel-sort both
inputs (same result as the sequential sort), then compare with `par_eq`. -/
def eq_by_sorting_par (numThreads : Nat) (x y : EntryList) : Option Bool :=
  let x := sortList x
  let y := sortList y
  par_eq numThreads x y

/-- Abstract model of the ahash crate as used by the library: a hasher state
`S` with the operations `AHasher::default()`, `Hasher::write`,
`Hasher::write_u64` and `Hasher::finish`.  The `u64` output is modelled as
`Nat`; no property of the concrete ahash algorithm is assumed. -/
structure AHashModel (S : Type) where
  default : S
  write : S → Entry → S
  writeU64 : S → Nat → S
  finish : S → Nat

/-- Model of `ahash_seq` (src/lib.rs lines 33-55): hash each entry, sort the
hashes, then fold the sorted hash list into a fresh hasher. -/
def ahash_seq {S : Type} (M : AHashModel S) (x : EntryList) : Nat :=
  let hashes := x.map fun e => M.finish (M.write M.default e)
  let hashes := sortList hashes
  M.finish (hashes.foldl (fun hasher elem => M.writeU64 hasher elem) M.default)

/-- Model of `ahash_par` (src/lib.rs lines 57-77): same as `ahash_seq` with
the entry hashing and the sort done by rayon (deterministic, so the model is
the same computation); the final fold is sequential in the source too. -/
def ahash_par {S : Type} (M : AHashModel S) (x : EntryList) : Nat :=
  let hashes := x.map fun e => M.finish (M.write M.default e)
  let hashes := sortList hashes
  M.finish (hashes.foldl (fun hasher elem => M.writeU64 hasher elem) M.default)

/-- Model of `eq_by_ahash_seq` (src/lib.rs lines 82-96): compare the sorted
per-entry hash lists of the two inputs. -/
def eq_by_ahash_seq {S : Type} (M : AHashModel S) (x y : EntryList) : Bool :=
  let sorted_hashes := fun (list : EntryList) =>
    sortList (list.map fun e => M.finish (M.write M.default e))
  decide (sorted_hashes x = sorted_hashes y)

/-- Model of `eq_by_ahash_par` (src/lib.rs lines 100-114): the rayon variant
of `eq_by_ahash_seq`; the final comparison is a plain `==` in the source. -/
def eq_by_ahash_par {S : Type} (M : AHashModel S) (x y : EntryList) : Bool :=
  let sorted_hashes := fun (list : EntryList) =>
    sortList (list.map fun e => M.finish (M.write M.default e))
  decide (sorted_hashes x = sorted_hashes y)

/-- Abstract model of the sha2 crate as used by the library: a digest type
`D` ordered bytewise (`Output<Sha256>` is ordered lexicographically by its
bytes), `Sha256::digest`, `Sha256::new`, `chain` and `finalize`. -/
structure Sha256Model (S D : Type) where
  digest : Entry → D
  new : S
  chain : S → D → S
  finalize : S → D

/-- Model of `sha256_seq` (src/lib.rs lines 118-133). -/
def sha256_seq {S D : Type} [LinearOrder D] (M : Sha256Model S D) (x : EntryList) : D :=
  let hashes := x.map fun e => M.digest e
  let hashes := sortList hashes
  M.finalize (hashes.foldl (fun hasher elem => M.chain hasher elem) M.new)

/-- Model of `sha256_par` (src/lib.rs lines 135-148): rayon variant of
`sha256_seq`, same deterministic computation. -/
def sha256_par {S D : Type} [LinearOrder D] (M : Sha256Model S D) (x : EntryList) : D :=
  let hashes := x.map fun e => M.digest e
  let hashes := sortList hashes
  M.finalize (hashes.foldl (fun hasher elem => M.chain hasher elem) M.new)

/-- Model of `eq_by_sha256_seq` (src/lib.rs lines 153-163). -/
def eq_by_sha256_seq {S D : Type} [LinearOrder D] (M : Sha256Model S D)
    (x y : EntryList) : Bool :=
  let sorted_hashes := fun (list : EntryList) => sortList (list.map fun e => M.digest e)
  decide (sorted_hashes x = sorted_hashes y)

/-- Model of `eq_by_sha256_par` (src/lib.rs lines 167-177). -/
def eq_by_sha256_par {S D : Type} [LinearOrder D] (M : Sha256Model S D)
    (x y : EntryList) : Bool :=
  let sorted_hashes := fun (list : EntryList) => sortList (list.map fun e => M.digest e)
  decide (sorted_hashes x = sorted_hashes y)

/-- Abstract model of the blake3 crate as used by the library: `blake3::Hash`
is a newtype of its 32 bytes, and the source sorts hashes with
`sort_unstable_by_key(|hash| *hash.as_bytes())`; since `as_bytes` is a
bijection onto the byte arrays, sorting by that key over the byte order is
sorting `D` by a linear order, which is what `[LinearOrder D]` stands for. -/
structure Blake3Model (S D : Type) where
  hash : Entry → D
  new : S
  update : S → D → S
  finalize : S → D

/-- Model of `blake3_seq` (src/lib.rs lines 181-199). -/
def blake3_seq {S D : Type} [LinearOrder D] (M : Blake3Model S D) (x : EntryList) : D :=
  let hashes := x.map fun e => M.hash e
  let hashes := sortList hashes
  M.finalize (hashes.foldl (fun hasher elem => M.update hasher elem) M.new)

/-- Model of `blake3_par` (src/lib.rs lines 201-217): rayon variant of
`blake3_seq`, same deterministic computation. -/
def blake3_par {S D : Type} [LinearOrder D] (M : Blake3Model S D) (x : EntryList) : D :=
  let hashes := x.map fun e => M.hash e
  let hashes := sortList hashes
  M.finalize (hashes.foldl (fun hasher elem => M.update hasher elem) M.new)

/-- Model of `eq_by_blake3_seq` (src/lib.rs lines 222-232). -/
def eq_by_blake3_seq {S D : Type} [LinearOrder D] (M : Blake3Model S D)
    (x y : EntryList) : Bool :=
  let sorted_hashes := fun (list : EntryList) => sortList (list.map fun e => M.hash e)
  decide (sorted_hashes x = sorted_hashes y)

/-- Model of `eq_by_blake3_par` (src/lib.rs lines 236-246). -/
def eq_by_blake3_par {S D : Type} [LinearOrder D] (M : Blake3Model S D)
    (x y : EntryList) : Bool :=
  let sorted_hashes := fun (list : EntryList) => sortList (list.map fun e => M.hash e)
  decide (sorted_hashes x = sorted_hashes y)

/-! ### General lemmas about the canonical sort -/

theorem sortList_perm {α : Type} [LinearOrder α] (l : List α) : (sortList l).Perm l :=
  List.perm_insertionSort _ l

theorem sortList_sorted {α : Type} [LinearOrder α] (l : List α) :
    List.Sorted (fun a b => a ≤ b) (sortList l) :=
  List.sorted_insertionSort _ l

theorem sortList_eq_of_perm {α : Type} [LinearOrder α] {x y : List α} (h : x.Perm y) :
    sortList x = sortList y :=
  List.eq_of_perm_of_sorted ((sortList_perm x).trans (h.trans (sortList_perm y).symm))
    (sortList_sorted x) (sortList_sorted y)

theorem sortList_eq_iff_perm {α : Type} [LinearOrder α] {x y : List α} :
    sortList x = sortList y ↔ x.Perm y := by
  constructor
  · intro h
    exact (sortList_perm x).symm.trans (h ▸ sortList_perm y)
  · exact sortList_eq_of_perm

theorem sortList_length {α : Type} [LinearOrder α] (l : List α) :
    (sortList l).length = l.length :=
  (sortList_perm l).length_eq

/-- If the per-entry digest is collision-free across the two lists, a
permutation of digest lists forces a permutation of the underlying lists. -/
theorem perm_of_map_perm {α β : Type} [DecidableEq α] (d : α → β) :
    ∀ (x y : List α), (∀ a ∈ x, ∀ b ∈ y, d a = d b → a = b) →
      (x.map d).Perm (y.map d) → x.Perm y := by
  intro x
  induction x with
  | nil =>
    intro y _ h
    have : y.map d = [] := h.symm.eq_nil
    rw [List.map_eq_nil_iff.mp this]
  | cons a t ih =>
    intro y hd h
    have hmem : d a ∈ y.map d := h.mem_iff.mp (List.mem_map_of_mem d (List.mem_cons_self a t))
    obtain ⟨b, hb, hba⟩ := List.mem_map.mp hmem
    have hab : a = b := hd a (List.mem_cons_self a t) b hb hba.symm
    subst hab
    have hy : y.Perm (a :: y.erase a) := List.perm_cons_erase hb
    have h2 := h.trans (hy.map d)
    simp only [List.map_cons] at h2
    have h3 : (t.map d).Perm ((y.erase a).map d) := h2.cons_inv
    have h4 : t.Perm (y.erase a) := by
      refine ih (y.erase a) ?_ h3
      intro a2 ha2 b2 hb2 hdd
      exact hd a2 (List.mem_cons_of_mem a ha2) b2 (List.mem_of_mem_erase hb2) hdd
    exact (h4.cons a).trans hy.symm

/-- Sorted digest lists of two entry lists are equal exactly when the entry
lists are permutations of one another, provided the digest is collision-free
across the two lists. -/
theorem sorted_map_eq_iff {D : Type} [LinearOrder D] (d : Entry → D) (x y : EntryList)
    (hd : ∀ a ∈ x, ∀ b ∈ y, d a = d b → a = b) :
    sortList (x.map d) = sortList (y.map d) ↔ x.Perm y := by
  rw [sortList_eq_iff_perm]
  constructor
  · exact perm_of_map_perm d x y hd
  · exact fun h => h.map d

/-- Sorted digest lists of entry lists of different lengths are different. -/
theorem sorted_map_ne_of_length {D : Type} [LinearOrder D] (d : Entry → D)
    (x y : EntryList) (h : x.length ≠ y.length) :
    sortList (x.map d) ≠ sortList (y.map d) := by
  intro he
  apply h
  have := congrArg List.length he
  rwa [sortList_length, sortList_length, List.length_map, List.length_map] at this

/-! ### Lemmas about the chunked comparison of `par_eq` -/

theorem chunksFuel_zip_all {α : Type} [DecidableEq α] (c : Nat) (hc : 1 ≤ c) :
    ∀ (fuel : Nat) (x y : List α), x.length ≤ fuel → x.length = y.length →
      ((((chunksFuel c fuel x).zip (chunksFuel c fuel y)).all
        fun p => decide (p.1 = p.2)) = true ↔ x = y) := by
  intro fuel
  induction fuel with
  | zero =>
    intro x y hx hxy
    have hx0 : x = [] := List.eq_nil_of_length_eq_zero (Nat.le_zero.mp hx)
    have hy0 : y = [] := by
      apply List.eq_nil_of_length_eq_zero
      omega
    subst hx0; subst hy0
    simp [chunksFuel]
  | succ fuel ih =>
    intro x y hx hxy
    match x, y with
    | [], [] => simp [chunksFuel]
    | [], b :: ys => simp at hxy
    | a :: xs, [] => simp at hxy
    | a :: xs, b :: ys =>
      rw [chunksFuel, chunksFuel]
      rw [List.zip_cons_cons, List.all_cons]
      rw [Bool.and_eq_true, decide_eq_true_iff]
      have hlen : ((a :: xs).drop c).length ≤ fuel := by
        rw [List.length_drop]
        simp only [List.length_cons] at hx ⊢
        omega
      have hlen2 : ((a :: xs).drop c).length = ((b :: ys).drop c).length := by
        rw [List.length_drop, List.length_drop, hxy]
      rw [ih _ _ hlen hlen2]
      constructor
      · rintro ⟨htake, hdrop⟩
        have htake2 : List.take c (a :: xs) = List.take c (b :: ys) := htake
        rw [← List.take_append_drop c (a :: xs), ← List.take_append_drop c (b :: ys),
          htake2, hdrop]
      · intro h
        rw [h]
        exact ⟨rfl, rfl⟩

/-- Full characterization of `par_eq`: a short-circuited `false` on length
mismatch, a panic (`none`) when the chunk size is zero, and otherwise plain
structural equality of the two lists. -/
theorem par_eq_spec {α : Type} [DecidableEq α] (nt : Nat) (x y : List α) :
    par_eq nt x y =
      if x.length = y.length then
        if x.length / nt = 0 then none else some (decide (x = y))
      else some false := by
  simp only [par_eq]
  by_cases hl : x.length = y.length
  · rw [if_pos hl, if_pos hl]
    by_cases hc : x.length / nt = 0
    · rw [if_pos hc, if_pos hc]
    · rw [if_neg hc, if_neg hc]
      congr 1
      have hc1 : 1 ≤ x.length / nt := Nat.one_le_iff_ne_zero.mpr hc
      rw [Bool.eq_iff_iff, decide_eq_true_iff]
      simp only [chunks]
      rw [← hl]
      exact chunksFuel_zip_all _ hc1 x.length x y le_rfl hl
  · rw [if_neg hl, if_neg hl]

/-- `eq_by_sorting_par` in terms of `eq_by_sorting_seq`: agreement whenever
the chunk size is nonzero, a panic (`none`) otherwise. -/
theorem eq_by_sorting_par_spec (nt : Nat) (x y : EntryList) :
    eq_by_sorting_par nt x y =
      if x.length = y.length then
        if x.length / nt = 0 then none else some (eq_by_sorting_seq x y)
      else some false := by
  simp only [eq_by_sorting_par, eq_by_sorting_seq, par_eq_spec, sortList_length]

theorem eq_by_sorting_seq_ne_length (x y : EntryList) (h : x.length ≠ y.length) :
    eq_by_sorting_seq x y = false := by
  simp only [eq_by_sorting_seq]
  apply decide_eq_false
  intro he
  apply h
  have := congrArg List.length he
  rwa [sortList_length, sortList_length] at this

/-- Shared shape of the three hash equality checks: comparing sorted digest
lists agrees with the sorting oracle once the digest is collision-free
across the two inputs. -/
theorem hash_eq_generic {D : Type} [LinearOrder D] (d : Entry → D) (x y : EntryList)
    (hd : ∀ a ∈ x ++ y, ∀ b ∈ x ++ y, d a = d b → a = b) :
    decide (sortList (x.map d) = sortList (y.map d)) = eq_by_sorting_seq x y := by
  simp only [eq_by_sorting_seq]
  apply decide_eq_decide.mpr
  rw [sorted_map_eq_iff d x y fun a ha b hb =>
    hd a (List.mem_append_left y ha) b (List.mem_append_right x hb)]
  exact sortList_eq_iff_perm.symm

/-! ### Concrete instantiations used by witnesses

The hash crates are external to the repository, so witnesses instantiate the
abstract models with simple concrete functions; nothing below claims any
relation to the real ahash, sha2 or blake3 algorithms. -/

def demoDigest (e : Entry) : Nat := e.foldl (fun a b => a * 256 + b + 1) 0

def demoAHash : AHashModel Nat where
  default := 0
  write := fun s e => s + demoDigest e
  writeU64 := fun s h => s * 1000003 + h + 1
  finish := fun s => s

def demoSha256 : Sha256Model Nat Nat where
  digest := demoDigest
  new := 0
  chain := fun s d => s * 1000003 + d + 1
  finalize := fun s => s

def demoBlake3 : Blake3Model Nat Nat where
  hash := demoDigest
  new := 0
  update := fun s d => s * 1000003 + d + 1
  finalize := fun s => s

/-- The example collection x = [b"abc", b"de"] of the spec, as byte lists. -/
def exampleX : EntryList := [[97, 98, 99], [100, 101]]

/-- The permutation y = [b"de", b"abc"] of `exampleX`. -/
def exampleY : EntryList := [[100, 101], [97, 98, 99]]

/-- y2 = [b"de", b"abc", b"abc"]: same entry set as `exampleX` but a
different duplicate count for b"abc". -/
def exampleY2 : EntryList := [[100, 101], [97, 98, 99], [97, 98, 99]]

/-! ### Claim theorems -/

/-- C1: for every collection and every permutation of it, each of the six
fingerprint functions (`ahash_seq`, `ahash_par`, `sha256_seq`, `sha256_par`,
`blake3_seq`, `blake3_par`) returns the same value, over any model of the
underlying hash crates. -/
theorem fingerprints_permutation_invariant
    {SA SS DS SB DB : Type} [LinearOrder DS] [LinearOrder DB]
    (MA : AHashModel SA) (MS : Sha256Model SS DS) (MB : Blake3Model SB DB)
    (x x2 : EntryList) (h : x.Perm x2) :
    ahash_seq MA x = ahash_seq MA x2 ∧ ahash_par MA x = ahash_par MA x2 ∧
    sha256_seq MS x = sha256_seq MS x2 ∧ sha256_par MS x = sha256_par MS x2 ∧
    blake3_seq MB x = blake3_seq MB x2 ∧ blake3_par MB x = blake3_par MB x2 := by
  have ha := sortList_eq_of_perm (h.map fun e => MA.finish (MA.write MA.default e))
  have hs := sortList_eq_of_perm (h.map fun e => MS.digest e)
  have hb := sortList_eq_of_perm (h.map fun e => MB.hash e)
  refine ⟨?_, ?_, ?_, ?_, ?_, ?_⟩ <;>
    simp [ahash_seq, ahash_par, sha256_seq, sha256_par, blake3_seq, blake3_par, ha, hs, hb]

/-- Witness for C1 at a concrete permuted pair and concrete hash models. -/
theorem fingerprints_permutation_invariant_witness :
    ([[1], [2]] : EntryList).Perm [[2], [1]] ∧
    (ahash_seq demoAHash [[1], [2]] = ahash_seq demoAHash [[2], [1]] ∧
      ahash_par demoAHash [[1], [2]] = ahash_par demoAHash [[2], [1]] ∧
      sha256_seq demoSha256 [[1], [2]] = sha256_seq demoSha256 [[2], [1]] ∧
      sha256_par demoSha256 [[1], [2]] = sha256_par demoSha256 [[2], [1]] ∧
      blake3_seq demoBlake3 [[1], [2]] = blake3_seq demoBlake3 [[2], [1]] ∧
      blake3_par demoBlake3 [[1], [2]] = blake3_par demoBlake3 [[2], [1]]) :=
  ⟨by decide,
    fingerprints_permutation_invariant demoAHash demoSha256 demoBlake3 _ _ (by decide)⟩

/-- C4: the sorting oracle `eq_by_sorting_seq` returns true exactly when the
two collections are equal as multisets of entries: no false positives, no
false negatives. -/
theorem eq_by_sorting_seq_iff_multiset_eq (x y : EntryList) :
    eq_by_sorting_seq x y = true ↔ (x : Multiset Entry) = (y : Multiset Entry) := by
  rw [Multiset.coe_eq_coe]
  simp only [eq_by_sorting_seq, decide_eq_true_eq]
  exact sortList_eq_iff_perm

/-- C10: for collections of different lengths `eq_by_sorting_par` returns
false without reaching the chunking (the length test short-circuits), and
the zero-chunk-size panic happens exactly on equal-length inputs shorter
than the worker count. -/
theorem par_eq_length_mismatch_safe (nt : Nat) (x y : EntryList) (hnt : 1 ≤ nt) :
    (x.length ≠ y.length → eq_by_sorting_par nt x y = some false) ∧
    (eq_by_sorting_par nt x y = none ↔ x.length = y.length ∧ x.length < nt) := by
  constructor
  · intro h
    rw [eq_by_sorting_par_spec, if_neg h]
  · rw [eq_by_sorting_par_spec]
    by_cases hl : x.length = y.length
    · rw [if_pos hl]
      by_cases hc : x.length / nt = 0
      · rw [if_pos hc]
        exact iff_of_true rfl ⟨hl, (Nat.div_eq_zero_iff (by omega : 0 < nt)).mp hc⟩
      · rw [if_neg hc]
        have : ¬ x.length < nt := fun hlt =>
          hc ((Nat.div_eq_zero_iff (by omega : 0 < nt)).mpr hlt)
        simp [this]
    · rw [if_neg hl]
      simp [hl]

/-- Witness for C10 at a concrete length-mismatched pair. -/
theorem par_eq_length_mismatch_safe_witness :
    (1 : Nat) ≤ 2 ∧
    ((([[0]] : EntryList).length ≠ ([] : EntryList).length →
        eq_by_sorting_par 2 [[0]] [] = some false) ∧
      (eq_by_sorting_par 2 [[0]] [] = none ↔
        ([[0]] : EntryList).length = ([] : EntryList).length ∧
          ([[0]] : EntryList).length < 2)) :=
  ⟨by decide, par_eq_length_mismatch_safe 2 [[0]] [] (by decide)⟩

/-- C2 (code bug): on a collection and a permutation of it, the sorting
oracle and the six hash equality checks return true, but `eq_by_sorting_par`
hits the zero-chunk-size panic (`none`) already on the empty collection and
its identity permutation, for every worker count — contradicting the claim
that every equality function returns true on such pairs. -/
theorem perm_eq_true_except_sorting_par
    {SA SS DS SB DB : Type} [LinearOrder DS] [LinearOrder DB]
    (MA : AHashModel SA) (MS : Sha256Model SS DS) (MB : Blake3Model SB DB)
    (nt : Nat) (x y : EntryList) (h : x.Perm y) :
    eq_by_sorting_seq x y = true ∧
    eq_by_ahash_seq MA x y = true ∧ eq_by_ahash_par MA x y = true ∧
    eq_by_sha256_seq MS x y = true ∧ eq_by_sha256_par MS x y = true ∧
    eq_by_blake3_seq MB x y = true ∧ eq_by_blake3_par MB x y = true ∧
    (1 ≤ nt → nt ≤ x.length → eq_by_sorting_par nt x y = some true) ∧
    eq_by_sorting_par nt [] [] = none := by
  have hseq : eq_by_sorting_seq x y = true := by
    simp only [eq_by_sorting_seq, decide_eq_true_eq]
    exact sortList_eq_of_perm h
  have ha := sortList_eq_of_perm (h.map fun e => MA.finish (MA.write MA.default e))
  have hs := sortList_eq_of_perm (h.map fun e => MS.digest e)
  have hb := sortList_eq_of_perm (h.map fun e => MB.hash e)
  refine ⟨hseq, ?_, ?_, ?_, ?_, ?_, ?_, ?_, ?_⟩
  · simp [eq_by_ahash_seq, ha]
  · simp [eq_by_ahash_par, ha]
  · simp [eq_by_sha256_seq, hs]
  · simp [eq_by_sha256_par, hs]
  · simp [eq_by_blake3_seq, hb]
  · simp [eq_by_blake3_par, hb]
  · intro hnt hle
    have hl : x.length = y.length := h.length_eq
    have hc : ¬ x.length / nt = 0 := fun hc =>
      absurd ((Nat.div_eq_zero_iff (by omega : 0 < nt)).mp hc) (by omega)
    rw [eq_by_sorting_par_spec, if_pos hl, if_neg hc, hseq]
  · rw [eq_by_sorting_par_spec]
    simp

/-- Witness for C2 at a concrete permuted pair and concrete hash models. -/
theorem perm_eq_true_except_sorting_par_witness :
    ([[3], [4]] : EntryList).Perm [[4], [3]] ∧
    (eq_by_sorting_seq [[3], [4]] [[4], [3]] = true ∧
      eq_by_ahash_seq demoAHash [[3], [4]] [[4], [3]] = true ∧
      eq_by_ahash_par demoAHash [[3], [4]] [[4], [3]] = true ∧
      eq_by_sha256_seq demoSha256 [[3], [4]] [[4], [3]] = true ∧
      eq_by_sha256_par demoSha256 [[3], [4]] [[4], [3]] = true ∧
      eq_by_blake3_seq demoBlake3 [[3], [4]] [[4], [3]] = true ∧
      eq_by_blake3_par demoBlake3 [[3], [4]] [[4], [3]] = true ∧
      (1 ≤ 2 → 2 ≤ ([[3], [4]] : EntryList).length →
        eq_by_sorting_par 2 [[3], [4]] [[4], [3]] = some true) ∧
      eq_by_sorting_par 2 [] [] = none) :=
  ⟨by decide,
    perm_eq_true_except_sorting_par demoAHash demoSha256 demoBlake3 2 _ _ (by decide)⟩

/-- C3 (code bug): contrary to the spec, not every input is handled without
panicking: `eq_by_sorting_par` panics (modelled `none`) on every pair of
equal length smaller than the worker count, including the empty pair. -/
theorem sorting_par_small_equal_length_panics (nt : Nat) (x y : EntryList)
    (hnt : 1 ≤ nt) (hl : x.length = y.length) (hsmall : x.length < nt) :
    eq_by_sorting_par nt x y = none := by
  rw [eq_by_sorting_par_spec, if_pos hl,
    if_pos ((Nat.div_eq_zero_iff (by omega : 0 < nt)).mpr hsmall)]

/-- Witness for C3: a one-entry pair with two worker threads panics. -/
theorem sorting_par_small_equal_length_panics_witness :
    (1 : Nat) ≤ 2 ∧ ([[0]] : EntryList).length = ([[1]] : EntryList).length ∧
    ([[0]] : EntryList).length < 2 ∧
    eq_by_sorting_par 2 [[0]] [[1]] = none :=
  ⟨by decide, by decide, by decide,
    sorting_par_small_equal_length_panics 2 [[0]] [[1]] (by decide) (by decide) (by decide)⟩

/-- C5 (code bug): the parallel fingerprint and hash equality variants agree
with their sequential counterparts on every input; `eq_by_sorting_par`
agrees with `eq_by_sorting_seq` whenever it completes (length mismatch, or
chunk size at least one), but panics (`none`) instead of returning the
sequential result on equal-length inputs shorter than the worker count,
e.g. on the empty pair. -/
theorem seq_par_agreement_except_sorting_par
    {SA SS DS SB DB : Type} [LinearOrder DS] [LinearOrder DB]
    (MA : AHashModel SA) (MS : Sha256Model SS DS) (MB : Blake3Model SB DB)
    (nt : Nat) (x y : EntryList) (hnt : 1 ≤ nt) :
    ahash_par MA x = ahash_seq MA x ∧ sha256_par MS x = sha256_seq MS x ∧
    blake3_par MB x = blake3_seq MB x ∧
    eq_by_ahash_par MA x y = eq_by_ahash_seq MA x y ∧
    eq_by_sha256_par MS x y = eq_by_sha256_seq MS x y ∧
    eq_by_blake3_par MB x y = eq_by_blake3_seq MB x y ∧
    ((x.length ≠ y.length ∨ nt ≤ x.length) →
      eq_by_sorting_par nt x y = some (eq_by_sorting_seq x y)) ∧
    eq_by_sorting_par nt [] [] = none := by
  refine ⟨rfl, rfl, rfl, rfl, rfl, rfl, ?_, ?_⟩
  · intro hcase
    by_cases hl : x.length = y.length
    · have hle : nt ≤ x.length := hcase.resolve_left (by simpa using hl)
      have hc : ¬ x.length / nt = 0 := fun hc =>
        absurd ((Nat.div_eq_zero_iff (by omega : 0 < nt)).mp hc) (by omega)
      rw [eq_by_sorting_par_spec, if_pos hl, if_neg hc]
    · rw [eq_by_sorting_par_spec, if_neg hl, eq_by_sorting_seq_ne_length x y hl]
  · rw [eq_by_sorting_par_spec]
    simp

/-- Witness for C5 at concrete inputs and concrete hash models. -/
theorem seq_par_agreement_except_sorting_par_witness :
    (1 : Nat) ≤ 1 ∧
    (ahash_par demoAHash [[7]] = ahash_seq demoAHash [[7]] ∧
      sha256_par demoSha256 [[7]] = sha256_seq demoSha256 [[7]] ∧
      blake3_par demoBlake3 [[7]] = blake3_seq demoBlake3 [[7]] ∧
      eq_by_ahash_par demoAHash [[7]] [[8]] = eq_by_ahash_seq demoAHash [[7]] [[8]] ∧
      eq_by_sha256_par demoSha256 [[7]] [[8]] = eq_by_sha256_seq demoSha256 [[7]] [[8]] ∧
      eq_by_blake3_par demoBlake3 [[7]] [[8]] = eq_by_blake3_seq demoBlake3 [[7]] [[8]] ∧
      ((([[7]] : EntryList).length ≠ ([[8]] : EntryList).length ∨
          1 ≤ ([[7]] : EntryList).length) →
        eq_by_sorting_par 1 [[7]] [[8]] = some (eq_by_sorting_seq [[7]] [[8]])) ∧
      eq_by_sorting_par 1 [] [] = none) :=
  ⟨by decide,
    seq_par_agreement_except_sorting_par demoAHash demoSha256 demoBlake3 1 _ _ (by decide)⟩

/-- C6: when the per-entry digest of each family is collision-free on the
entries of the two collections, each of the six hash equality checks returns
exactly the boolean of the sorting oracle. -/
theorem hash_eq_agrees_with_oracle
    {SA SS DS SB DB : Type} [LinearOrder DS] [LinearOrder DB]
    (MA : AHashModel SA) (MS : Sha256Model SS DS) (MB : Blake3Model SB DB)
    (x y : EntryList)
    (hA : ∀ a ∈ x ++ y, ∀ b ∈ x ++ y,
      MA.finish (MA.write MA.default a) = MA.finish (MA.write MA.default b) → a = b)
    (hS : ∀ a ∈ x ++ y, ∀ b ∈ x ++ y, MS.digest a = MS.digest b → a = b)
    (hB : ∀ a ∈ x ++ y, ∀ b ∈ x ++ y, MB.hash a = MB.hash b → a = b) :
    eq_by_ahash_seq MA x y = eq_by_sorting_seq x y ∧
    eq_by_ahash_par MA x y = eq_by_sorting_seq x y ∧
    eq_by_sha256_seq MS x y = eq_by_sorting_seq x y ∧
    eq_by_sha256_par MS x y = eq_by_sorting_seq x y ∧
    eq_by_blake3_seq MB x y = eq_by_sorting_seq x y ∧
    eq_by_blake3_par MB x y = eq_by_sorting_seq x y :=
  ⟨hash_eq_generic _ x y hA, hash_eq_generic _ x y hA,
    hash_eq_generic _ x y hS, hash_eq_generic _ x y hS,
    hash_eq_generic _ x y hB, hash_eq_generic _ x y hB⟩

/-- Witness for C6: concrete models whose digests are collision-free on a
concrete pair of collections. -/
theorem hash_eq_agrees_with_oracle_witness :
    (∀ a ∈ ([[0], [1]] ++ [[1], [0]] : EntryList), ∀ b ∈ ([[0], [1]] ++ [[1], [0]] : EntryList),
      demoAHash.finish (demoAHash.write demoAHash.default a) =
        demoAHash.finish (demoAHash.write demoAHash.default b) → a = b) ∧
    (∀ a ∈ ([[0], [1]] ++ [[1], [0]] : EntryList), ∀ b ∈ ([[0], [1]] ++ [[1], [0]] : EntryList),
      demoSha256.digest a = demoSha256.digest b → a = b) ∧
    (∀ a ∈ ([[0], [1]] ++ [[1], [0]] : EntryList), ∀ b ∈ ([[0], [1]] ++ [[1], [0]] : EntryList),
      demoBlake3.hash a = demoBlake3.hash b → a = b) ∧
    (eq_by_ahash_seq demoAHash [[0], [1]] [[1], [0]] = eq_by_sorting_seq [[0], [1]] [[1], [0]] ∧
      eq_by_ahash_par demoAHash [[0], [1]] [[1], [0]] = eq_by_sorting_seq [[0], [1]] [[1], [0]] ∧
      eq_by_sha256_seq demoSha256 [[0], [1]] [[1], [0]] = eq_by_sorting_seq [[0], [1]] [[1], [0]] ∧
      eq_by_sha256_par demoSha256 [[0], [1]] [[1], [0]] = eq_by_sorting_seq [[0], [1]] [[1], [0]] ∧
      eq_by_blake3_seq demoBlake3 [[0], [1]] [[1], [0]] = eq_by_sorting_seq [[0], [1]] [[1], [0]] ∧
      eq_by_blake3_par demoBlake3 [[0], [1]] [[1], [0]] = eq_by_sorting_seq [[0], [1]] [[1], [0]]) :=
  ⟨by decide, by decide, by decide,
    hash_eq_agrees_with_oracle demoAHash demoSha256 demoBlake3 [[0], [1]] [[1], [0]]
      (by decide) (by decide) (by decide)⟩

/-- C7 (code bug): the empty-boundary behaviour of all fourteen functions.
The empty collection compares equal to itself under the oracle and all six
hash equality checks, and unequal to the one-empty-entry collection under
all eight equality checks, with `eq_by_sorting_par` returning false there
thanks to the short-circuited length test; but on the pair of empty
collections `eq_by_sorting_par` panics (`none`) instead of returning true,
for every worker count.  The three fingerprints are well defined on the
empty collection and on the one-empty-entry collection, with the stated
values; whether those two values differ depends only on the external hash
crates, which are outside this repository. -/
theorem empty_boundary_evaluations
    {SA SS DS SB DB : Type} [LinearOrder DS] [LinearOrder DB]
    (MA : AHashModel SA) (MS : Sha256Model SS DS) (MB : Blake3Model SB DB) (nt : Nat) :
    eq_by_sorting_seq [] [] = true ∧
    eq_by_sorting_par nt [] [] = none ∧
    eq_by_ahash_seq MA [] [] = true ∧ eq_by_ahash_par MA [] [] = true ∧
    eq_by_sha256_seq MS [] [] = true ∧ eq_by_sha256_par MS [] [] = true ∧
    eq_by_blake3_seq MB [] [] = true ∧ eq_by_blake3_par MB [] [] = true ∧
    eq_by_sorting_seq [] [[]] = false ∧
    eq_by_sorting_par nt [] [[]] = some false ∧
    eq_by_ahash_seq MA [] [[]] = false ∧ eq_by_ahash_par MA [] [[]] = false ∧
    eq_by_sha256_seq MS [] [[]] = false ∧ eq_by_sha256_par MS [] [[]] = false ∧
    eq_by_blake3_seq MB [] [[]] = false ∧ eq_by_blake3_par MB [] [[]] = false ∧
    ahash_seq MA [] = MA.finish MA.default ∧
    sha256_seq MS [] = MS.finalize MS.new ∧
    blake3_seq MB [] = MB.finalize MB.new ∧
    ahash_seq MA [[]] = MA.finish (MA.writeU64 MA.default (MA.finish (MA.write MA.default []))) ∧
    sha256_seq MS [[]] = MS.finalize (MS.chain MS.new (MS.digest [])) ∧
    blake3_seq MB [[]] = MB.finalize (MB.update MB.new (MB.hash [])) := by
  refine ⟨rfl, ?_, rfl, rfl, rfl, rfl, rfl, rfl, rfl, ?_, rfl, rfl, rfl, rfl, rfl, rfl,
    rfl, rfl, rfl, rfl, rfl, rfl⟩
  · rw [eq_by_sorting_par_spec]
    simp
  · rw [eq_by_sorting_par_spec]
    simp [eq_by_sorting_seq_ne_length]

/-- C8 (code bug): on the spec example x = [b"abc", b"de"] and its
permutation y = [b"de", b"abc"], the oracle and all six hash equality checks
return true for every hash model, and `eq_by_sorting_par` returns true with
one or two worker threads but panics (`none`) with three; on
y2 = [b"de", b"abc", b"abc"] all eight equality checks report inequality
(duplicate counts are significant), `eq_by_sorting_par` among them for every
worker count since the length test short-circuits. -/
theorem example_scenario_evaluations
    {SA SS DS SB DB : Type} [LinearOrder DS] [LinearOrder DB]
    (MA : AHashModel SA) (MS : Sha256Model SS DS) (MB : Blake3Model SB DB) (nt : Nat) :
    eq_by_sorting_seq exampleX exampleY = true ∧
    eq_by_ahash_seq MA exampleX exampleY = true ∧
    eq_by_ahash_par MA exampleX exampleY = true ∧
    eq_by_sha256_seq MS exampleX exampleY = true ∧
    eq_by_sha256_par MS exampleX exampleY = true ∧
    eq_by_blake3_seq MB exampleX exampleY = true ∧
    eq_by_blake3_par MB exampleX exampleY = true ∧
    eq_by_sorting_par 1 exampleX exampleY = some true ∧
    eq_by_sorting_par 2 exampleX exampleY = some true ∧
    eq_by_sorting_par 3 exampleX exampleY = none ∧
    eq_by_sorting_seq exampleX exampleY2 = false ∧
    eq_by_ahash_seq MA exampleX exampleY2 = false ∧
    eq_by_ahash_par MA exampleX exampleY2 = false ∧
    eq_by_sha256_seq MS exampleX exampleY2 = false ∧
    eq_by_sha256_par MS exampleX exampleY2 = false ∧
    eq_by_blake3_seq MB exampleX exampleY2 = false ∧
    eq_by_blake3_par MB exampleX exampleY2 = false ∧
    eq_by_sorting_par nt exampleX exampleY2 = some false := by
  have hxy : exampleX.Perm exampleY := by decide
  have hseq : eq_by_sorting_seq exampleX exampleY = true := by decide
  have hlen : exampleX.length ≠ exampleY2.length := by decide
  have ha := sortList_eq_of_perm (hxy.map fun e => MA.finish (MA.write MA.default e))
  have hs := sortList_eq_of_perm (hxy.map fun e => MS.digest e)
  have hb := sortList_eq_of_perm (hxy.map fun e => MB.hash e)
  have ha2 := sorted_map_ne_of_length (fun e => MA.finish (MA.write MA.default e))
    exampleX exampleY2 hlen
  have hs2 := sorted_map_ne_of_length (fun e => MS.digest e) exampleX exampleY2 hlen
  have hb2 := sorted_map_ne_of_length (fun e => MB.hash e) exampleX exampleY2 hlen
  refine ⟨hseq, ?_, ?_, ?_, ?_, ?_, ?_, ?_, ?_, ?_, by decide, ?_, ?_, ?_, ?_, ?_, ?_, ?_⟩
  · simp [eq_by_ahash_seq, ha]
  · simp [eq_by_ahash_par, ha]
  · simp [eq_by_sha256_seq, hs]
  · simp [eq_by_sha256_par, hs]
  · simp [eq_by_blake3_seq, hb]
  · simp [eq_by_blake3_par, hb]
  · rw [eq_by_sorting_par_spec, if_pos (by decide), if_neg (by decide), hseq]
  · rw [eq_by_sorting_par_spec, if_pos (by decide), if_neg (by decide), hseq]
  · rw [eq_by_sorting_par_spec, if_pos (by decide), if_pos (by decide)]
  · simp [eq_by_ahash_seq, ha2]
  · simp [eq_by_ahash_par, ha2]
  · simp [eq_by_sha256_seq, hs2]
  · simp [eq_by_sha256_par, hs2]
  · simp [eq_by_blake3_seq, hb2]
  · simp [eq_by_blake3_par, hb2]
  · rw [eq_by_sorting_par_spec, if_neg hlen]

/-- C9 counterexample: the library has no set-collapse combiner.  On the
pair (exampleX, exampleY2), which have the same entry set (identical
deduplicated, sorted contents) and differ only in the duplicate count of one
entry, every exposed equality operation of the library reports inequality:
no exposed operation collapses duplicates the way a set container would. -/
theorem no_set_collapse_counterexample :
    sortList (exampleX.dedup) = sortList (exampleY2.dedup) ∧
    eq_by_sorting_seq exampleX exampleY2 = false ∧
    eq_by_sorting_par 1 exampleX exampleY2 = some false ∧
    eq_by_ahash_seq demoAHash exampleX exampleY2 = false ∧
    eq_by_ahash_par demoAHash exampleX exampleY2 = false ∧
    eq_by_sha256_seq demoSha256 exampleX exampleY2 = false ∧
    eq_by_sha256_par demoSha256 exampleX exampleY2 = false ∧
    eq_by_blake3_seq demoBlake3 exampleX exampleY2 = false ∧
    eq_by_blake3_par demoBlake3 exampleX exampleY2 = false := by decide

/-- C9 amended: only the sort-then-chain combiner is implemented.  With
collision-free digests, every exposed equality operation of the library
decides multiset (permutation) equality, so collections differing only in
duplicate counts are never reported equal by any exposed operation. -/
theorem multiset_semantics_throughout
    {SA SS DS SB DB : Type} [LinearOrder DS] [LinearOrder DB]
    (MA : AHashModel SA) (MS : Sha256Model SS DS) (MB : Blake3Model SB DB)
    (x y : EntryList)
    (hA : ∀ a ∈ x ++ y, ∀ b ∈ x ++ y,
      MA.finish (MA.write MA.default a) = MA.finish (MA.write MA.default b) → a = b)
    (hS : ∀ a ∈ x ++ y, ∀ b ∈ x ++ y, MS.digest a = MS.digest b → a = b)
    (hB : ∀ a ∈ x ++ y, ∀ b ∈ x ++ y, MB.hash a = MB.hash b → a = b) :
    (eq_by_sorting_seq x y = true ↔ x.Perm y) ∧
    (eq_by_ahash_seq MA x y = true ↔ x.Perm y) ∧
    (eq_by_ahash_par MA x y = true ↔ x.Perm y) ∧
    (eq_by_sha256_seq MS x y = true ↔ x.Perm y) ∧
    (eq_by_sha256_par MS x y = true ↔ x.Perm y) ∧
    (eq_by_blake3_seq MB x y = true ↔ x.Perm y) ∧
    (eq_by_blake3_par MB x y = true ↔ x.Perm y) := by
  have horacle : eq_by_sorting_seq x y = true ↔ x.Perm y := by
    simp only [eq_by_sorting_seq, decide_eq_true_eq]
    exact sortList_eq_iff_perm
  have eA : eq_by_ahash_seq MA x y = eq_by_sorting_seq x y := hash_eq_generic _ x y hA
  have eS : eq_by_sha256_seq MS x y = eq_by_sorting_seq x y := hash_eq_generic _ x y hS
  have eB : eq_by_blake3_seq MB x y = eq_by_sorting_seq x y := hash_eq_generic _ x y hB
  have eA2 : eq_by_ahash_par MA x y = eq_by_sorting_seq x y := hash_eq_generic _ x y hA
  have eS2 : eq_by_sha256_par MS x y = eq_by_sorting_seq x y := hash_eq_generic _ x y hS
  have eB2 : eq_by_blake3_par MB x y = eq_by_sorting_seq x y := hash_eq_generic _ x y hB
  rw [eA, eS, eB, eA2, eS2, eB2]
  exact ⟨horacle, horacle, horacle, horacle, horacle, horacle, horacle⟩

/-- Witness for the amended C9 statement at concrete collections differing
only in a duplicate count, with concrete collision-free hash models. -/
theorem multiset_semantics_throughout_witness :
    (∀ a ∈ ([[5]] ++ [[5], [5]] : EntryList), ∀ b ∈ ([[5]] ++ [[5], [5]] : EntryList),
      demoAHash.finish (demoAHash.write demoAHash.default a) =
        demoAHash.finish (demoAHash.write demoAHash.default b) → a = b) ∧
    (∀ a ∈ ([[5]] ++ [[5], [5]] : EntryList), ∀ b ∈ ([[5]] ++ [[5], [5]] : EntryList),
      demoSha256.digest a = demoSha256.digest b → a = b) ∧
    (∀ a ∈ ([[5]] ++ [[5], [5]] : EntryList), ∀ b ∈ ([[5]] ++ [[5], [5]] : EntryList),
      demoBlake3.hash a = demoBlake3.hash b → a = b) ∧
    ((eq_by_sorting_seq [[5]] [[5], [5]] = true ↔ ([[5]] : EntryList).Perm [[5], [5]]) ∧
      (eq_by_ahash_seq demoAHash [[5]] [[5], [5]] = true ↔ ([[5]] : EntryList).Perm [[5], [5]]) ∧
      (eq_by_ahash_par demoAHash [[5]] [[5], [5]] = true ↔ ([[5]] : EntryList).Perm [[5], [5]]) ∧
      (eq_by_sha256_seq demoSha256 [[5]] [[5], [5]] = true ↔ ([[5]] : EntryList).Perm [[5], [5]]) ∧
      (eq_by_sha256_par demoSha256 [[5]] [[5], [5]] = true ↔ ([[5]] : EntryList).Perm [[5], [5]]) ∧
      (eq_by_blake3_seq demoBlake3 [[5]] [[5], [5]] = true ↔ ([[5]] : EntryList).Perm [[5], [5]]) ∧
      (eq_by_blake3_par demoBlake3 [[5]] [[5], [5]] = true ↔ ([[5]] : EntryList).Perm [[5], [5]])) :=
  ⟨by decide, by decide, by decide,
    multiset_semantics_throughout demoAHash demoSha256 demoBlake3 [[5]] [[5], [5]]
      (by decide) (by decide) (by decide)⟩
